import Mathlib

/-!
Verification development for the domain-checker MCP repository.

The domain-resolution engine (src `domain-checker.ts`) is shallowly embedded
here.  Network effects are made explicit: the raw RDAP / WHOIS calls (which
the source performs through `retryWithBackoff`) appear as `Except String p`
parameters, where `.error msg` models the call raising a JavaScript `Error`
with message `msg` and `.ok p` models it resolving with payload `p`.
JavaScript runtime facilities that the extractor uses (`Date.now`,
`new Date(...)` parsing, `toISOString`) are bundled into an explicit `JsEnv`
record of pure functions.  JavaScript strings are modelled by Lean `String`
(lists of characters); `toLowerCase`, `trim`, `includes`, `startsWith` are
re-implemented below as executable character-list functions.
-/

deriving instance DecidableEq for Except

namespace DomainChecker

/-! ## JavaScript string primitives -/

/-- Model of JS `String.prototype.includes`: is `pat` a contiguous substring
of `l`?  (Executable companion of `List.IsInfix`.) -/
def containsSeq (l pat : List Char) : Bool :=
  match l with
  | [] => pat.isEmpty
  | _ :: rest => pat.isPrefixOf l || containsSeq rest pat

/-- Model of JS `String.prototype.trim`: drop leading and trailing
whitespace characters. -/
def trimChars (l : List Char) : List Char :=
  ((l.dropWhile Char.isWhitespace).reverse.dropWhile Char.isWhitespace).reverse

/-- JS `s.includes(pat)` on strings. -/
def jsIncludes (s pat : String) : Bool :=
  containsSeq s.toList pat.toList

/-- JS `s.toLowerCase()` (ASCII case folding, as `Char.toLower`). -/
def jsToLower (s : String) : String :=
  String.mk (s.toList.map Char.toLower)

/-- JS `s.trim()`. -/
def jsTrim (s : String) : String :=
  String.mk (trimChars s.toList)

/-- JS `s.startsWith(pat)`. -/
def jsStartsWith (s pat : String) : Bool :=
  pat.toList.isPrefixOf s.toList

/-- JS `s.length` (code-point count; the sources only compare it against a
small ASCII-scale threshold). -/
def jsLength (s : String) : Nat :=
  s.toList.length

/-- JS truthiness of an optional string value: the field is present and not
the empty string. -/
def jsTruthyStr : Option String → Bool
  | some s => s != ""
  | none => false

/-- JS `a || dflt` on an optional string: the string if truthy, else the
default. -/
def jsStringOr (s : Option String) (dflt : String) : String :=
  match s with
  | some t => if t = "" then dflt else t
  | none => dflt

/-! ## Data model (source: `domain-checker.ts` type declarations) -/

/-- Source `DomainStatus`: one of `available`, `taken`, `unknown`,
`rate_limited`. -/
inductive DomainStatus where
  | available
  | taken
  | unknown
  | rate_limited
deriving DecidableEq, Repr

/-- Source result `method` field: `rdap` (registry path) or `whois`
(legacy path). -/
inductive LookupMethod where
  | rdap
  | whois
deriving DecidableEq, Repr

/-- Source `DomainInfo`: best-effort extracted metadata, all fields
optional. -/
structure DomainInfo where
  registrar : Option String
  expirationDate : Option String
  daysUntilExpiration : Option Int
  creationDate : Option String
  lastUpdated : Option String
deriving DecidableEq, Repr

/-- Empty `DomainInfo` (the `const info: DomainInfo = \x7b\x7d` initial value). -/
def DomainInfo.empty : DomainInfo :=
  { registrar := none, expirationDate := none, daysUntilExpiration := none
    creationDate := none, lastUpdated := none }

/-- Entry of an RDAP vCard array (`vcardArray[1]` element): position 0 is the
property name, position 3 the value (`none` models an absent `v[3]`). -/
structure VcardEntry where
  name : String
  value : Option String
deriving DecidableEq, Repr

/-- RDAP entity: optional `roles` list and optional `vcardArray[1]` entry
list. -/
structure RdapEntity where
  roles : Option (List String)
  vcard : Option (List VcardEntry)
deriving DecidableEq, Repr

/-- RDAP event: `eventAction` tag and optional `eventDate` string. -/
structure RdapEvent where
  eventAction : String
  eventDate : Option String
deriving DecidableEq, Repr

/-- Projection of an RDAP JSON payload onto the fields the source reads.
`extraKeys` records the names of any further own keys of the JSON object
(including modelled keys that are present but `null`), so that the
source's `Object.keys(result).length === 0` emptiness test is expressible. -/
structure RdapRecord where
  errorCode : Option Int
  title : Option String
  entities : Option (List RdapEntity)
  events : Option (List RdapEvent)
  extraKeys : List String
deriving DecidableEq, Repr

/-- RDAP record with every key absent. -/
def RdapRecord.empty : RdapRecord :=
  { errorCode := none, title := none, entities := none, events := none
    extraKeys := [] }

/-- Source emptiness test on the RDAP call payload:
`!result || Object.keys(result).length === 0` (`none` models `null` /
`undefined`). -/
def rdapNullOrEmpty : Option RdapRecord → Bool
  | none => true
  | some r =>
    r.errorCode.isNone && r.title.isNone && r.entities.isNone &&
      r.events.isNone && r.extraKeys.isEmpty

/-- Payload of a WHOIS call: `null`/`undefined`, a string body, or a
non-string value together with its `JSON.stringify` serialization. -/
inductive WhoisPayload where
  | nullP
  | strP (s : String)
  | objP (serialized : String)
deriving DecidableEq, Repr

/-- JS truthiness of the WHOIS payload (`!result` test): `null`/`undefined`
and the empty string are falsy, objects are truthy. -/
def WhoisPayload.truthy : WhoisPayload → Bool
  | .nullP => false
  | .strP s => s != ""
  | .objP _ => true

/-- Source `typeof result === 'string' ? result : JSON.stringify(result)`. -/
def WhoisPayload.text : WhoisPayload → String
  | .nullP => "null"
  | .strP s => s
  | .objP j => j

/-- Opaque raw payload stored in a result's `registrationData` field.
`nullData` models the explicit `registrationData: null` assignment. -/
inductive RawData where
  | nullData
  | rdapData (r : RdapRecord)
  | whoisData (p : WhoisPayload)
deriving DecidableEq, Repr

/-- Source `DomainCheckResult`.  `none` in an optional field models the key
being absent from the JS object. -/
structure DomainCheckResult where
  domain : String
  available : Bool
  status : DomainStatus
  method : LookupMethod
  error : Option String
  registrationData : Option RawData
  domainInfo : Option DomainInfo
deriving DecidableEq, Repr

/-- Explicit bundle of the JS runtime date facilities used by
`extractDomainInfo`: `now` is `Date.now()` in epoch milliseconds,
`parseDate s` is `new Date(s).getTime()` (`none` models `NaN`), and
`toISO t` is `new Date(t).toISOString()`. -/
structure JsEnv where
  now : Int
  parseDate : String → Option Int
  toISO : Int → String

/-! ## Rate-limit detection (shared by retrier and both lookup paths) -/

/-- Source test repeated at each catch site:
`msg.toLowerCase().includes('rate limit') ||
 msg.toLowerCase().includes('too many requests')`. -/
def isRateLimitedMessage (msg : String) : Bool :=
  jsIncludes (jsToLower msg) "rate limit" ||
    jsIncludes (jsToLower msg) "too many requests"

/-! ## Backoff retrier (source: `retryWithBackoff`)

The operation is modelled as a map from the 0-based attempt index to the
outcome of that attempt.  The embedding returns, besides the final outcome,
the number of attempts actually made and the list of sleep durations (ms)
performed between attempts, so the retry policy is observable. -/

/-- Source constant `MAX_RETRIES = 3`. -/
def MAX_RETRIES : Nat := 3

/-- Source constant `INITIAL_DELAY = 1000` (ms). -/
def INITIAL_DELAY : Nat := 1000

/-- Source constant `BACKOFF_MULTIPLIER = 2`. -/
def BACKOFF_MULTIPLIER : Nat := 2

/-- Loop of source `retryWithBackoff`, with `remaining` the number of loop
iterations left (`remaining = maxRetries - attempt` at every call) and
`attempt` the 0-based loop index.  Returns (final outcome, number of
attempts made from here on, delays slept between them).  The
`remaining = 0` arm is the trailing `throw lastError` (with `lastError`
still `undefined` when the loop never ran). -/
def retryLoop (op : Nat → Except String α) (maxRetries : Nat) :
    Nat → Nat → Option String → Except String α × Nat × List Nat
  | 0, _, lastError => (.error (lastError.getD "undefined"), 0, [])
  | remaining + 1, attempt, _ =>
    match op attempt with
    | .ok v => (.ok v, 1, [])
    | .error e =>
      if isRateLimitedMessage e && decide (attempt < maxRetries - 1) then
        let rest := retryLoop op maxRetries remaining (attempt + 1) (some e)
        (rest.1, rest.2.1 + 1, INITIAL_DELAY * BACKOFF_MULTIPLIER ^ attempt :: rest.2.2)
      else
        (.error e, 1, [])

/-- Source `retryWithBackoff(fn, maxRetries)`. -/
def retryWithBackoff (op : Nat → Except String α) (maxRetries : Nat) :
    Except String α × Nat × List Nat :=
  retryLoop op maxRetries maxRetries 0 none

/-! ## Structured-field extractor (source: `extractDomainInfo`) -/

/-- Source `e.vcardArray?.[1]?.some(v => v[0] === 'fn')`. -/
def vcardHasFn (v : Option (List VcardEntry)) : Bool :=
  match v with
  | some entries => entries.any (fun e => e.name == "fn")
  | none => false

/-- Source `e.roles?.includes('registrar')`. -/
def rolesHasRegistrar (roles : Option (List String)) : Bool :=
  match roles with
  | some rs => rs.contains "registrar"
  | none => false

/-- RDAP branch (`method === 'rdap'`, `data` truthy) of source
`extractDomainInfo`.  A failed date parse (`NaN` arithmetic in JS) is
modelled as the derived field being absent. -/
def extractDomainInfoRdap (env : JsEnv) (data : RdapRecord) : DomainInfo :=
  let registrarName : Option String :=
    match data.entities with
    | none => none
    | some entities =>
      match entities.find? (fun e => rolesHasRegistrar e.roles || vcardHasFn e.vcard) with
      | none => none
      | some registrar =>
        match registrar.vcard with
        | none => none
        | some entries =>
          match entries.find? (fun v => v.name == "fn") with
          | some fnEntry => fnEntry.value
          | none => none
  let expirationDate : Option String :=
    match data.events with
    | none => none
    | some events =>
      match events.find? (fun e => e.eventAction == "expiration") with
      | some ev => match ev.eventDate with
        | some d => if d = "" then none else some d
        | none => none
      | none => none
  let creationDate : Option String :=
    match data.events with
    | none => none
    | some events =>
      match events.find? (fun e => e.eventAction == "registration") with
      | some ev => match ev.eventDate with
        | some d => if d = "" then none else some d
        | none => none
      | none => none
  let lastUpdated : Option String :=
    match data.events with
    | none => none
    | some events =>
      match events.find? (fun e => e.eventAction == "last changed") with
      | some ev => match ev.eventDate with
        | some d => if d = "" then none else some d
        | none => none
      | none => none
  { registrar := registrarName
    expirationDate := expirationDate
    daysUntilExpiration :=
      match expirationDate with
      | some d =>
        match env.parseDate d with
        | some t => some (Int.fdiv (t - env.now) 86400000)
        | none => none
      | none => none
    creationDate := creationDate
    lastUpdated := lastUpdated }

/-- Find, case-insensitively, the first occurrence of `key` in `text`; then,
as the regex `key\s*([^\r\n]+)` would, skip whitespace and capture the
remainder of the line (empty capture = no match).  Executable model of the
source's anchored-keyword regexes over WHOIS free text. -/
def findValueAfterKey (text key : String) : Option String :=
  go text.toList key.toList
where
  go : List Char → List Char → Option String
  | [], _ => none
  | c :: rest, key =>
    if key.isPrefixOf ((c :: rest).map Char.toLower) then
      let v := (((c :: rest).drop key.length).dropWhile Char.isWhitespace).takeWhile
        (fun ch => ch != '\r' && ch != '\n')
      if v.isEmpty then none else some (String.mk v)
    else
      go rest key

/-- First of the alternative keyword spellings that matches (model of the
regex alternations such as `Expiry Date|Expiration Date|Expires on`). -/
def findFirstKeyed (text : String) (keys : List String) : Option String :=
  match keys with
  | [] => none
  | k :: rest =>
    match findValueAfterKey text k with
    | some v => some v
    | none => findFirstKeyed text rest

/-- WHOIS branch (`method === 'whois'`, `data` truthy) of source
`extractDomainInfo`, applied to the serialized WHOIS text.  An unparsable
date (where JS `toISOString` would throw inside the `try`) leaves the
corresponding fields absent. -/
def extractDomainInfoWhois (env : JsEnv) (whoisText : String) : DomainInfo :=
  let registrarMatch := findValueAfterKey whoisText "registrar:"
  let expirationMatch :=
    findFirstKeyed whoisText ["expiry date:", "expiration date:", "expires on:"]
  let creationMatch := findFirstKeyed whoisText ["creation date:", "created on:"]
  let updatedMatch := findFirstKeyed whoisText ["updated date:", "last updated:"]
  { registrar := registrarMatch.map jsTrim
    expirationDate :=
      expirationMatch.bind (fun s => (env.parseDate (jsTrim s)).map env.toISO)
    daysUntilExpiration :=
      expirationMatch.bind (fun s =>
        (env.parseDate (jsTrim s)).map (fun t => Int.fdiv (t - env.now) 86400000))
    creationDate :=
      creationMatch.bind (fun s => (env.parseDate (jsTrim s)).map env.toISO)
    lastUpdated :=
      updatedMatch.bind (fun s => (env.parseDate (jsTrim s)).map env.toISO) }

/-! ## Registry (RDAP) lookup path (source: `checkDomainWithRdap`) -/

/-- Source title test:
`result.title && (lower includes 'not found' || lower includes 'object not found')`. -/
def titleSaysNotFound (title : Option String) : Bool :=
  match title with
  | some t =>
    t != "" &&
      (jsIncludes (jsToLower t) "not found" || jsIncludes (jsToLower t) "object not found")
  | none => false

/-- Source `result.errorCode && result.errorCode >= 400` (JS truthiness:
`0` is falsy). -/
def errorCodeAtLeast400 (ec : Option Int) : Bool :=
  match ec with
  | some c => c != 0 && decide (400 ≤ c)
  | none => false

/-- Source `checkDomainWithRdap(domain)`.  `call` is the outcome of
`retryWithBackoff(() => rdapDomain(domain))`; a returned `.error` models the
re-throw that triggers the WHOIS fallback. -/
def checkDomainWithRdap (env : JsEnv) (domain : String)
    (call : Except String (Option RdapRecord)) : Except String DomainCheckResult :=
  match call with
  | .ok result =>
    if rdapNullOrEmpty result then
      .ok { domain := domain, available := true, status := .available, method := .rdap
            error := none, registrationData := some .nullData, domainInfo := none }
    else
      match result with
      | none =>
        .ok { domain := domain, available := true, status := .available, method := .rdap
              error := none, registrationData := some .nullData, domainInfo := none }
      | some r =>
        if r.errorCode == some 404 || titleSaysNotFound r.title then
          .ok { domain := domain, available := true, status := .available, method := .rdap
                error := none, registrationData := some (.rdapData r), domainInfo := none }
        else if errorCodeAtLeast400 r.errorCode then
          if r.errorCode.getD 0 < 500 then
            .ok { domain := domain, available := true, status := .available, method := .rdap
                  error := none, registrationData := some (.rdapData r), domainInfo := none }
          else
            .ok { domain := domain, available := false, status := .unknown, method := .rdap
                  error := some (jsStringOr r.title "RDAP server error")
                  registrationData := some (.rdapData r), domainInfo := none }
        else
          .ok { domain := domain, available := false, status := .taken, method := .rdap
                error := none, registrationData := some (.rdapData r)
                domainInfo := some (extractDomainInfoRdap env r) }
  | .error e =>
    let errorMessage := jsToLower e
    if jsIncludes errorMessage "rate limit" || jsIncludes errorMessage "too many requests" then
      .ok { domain := domain, available := false, status := .rate_limited, method := .rdap
            error := some "Rate limited by RDAP server", registrationData := none
            domainInfo := none }
    else if jsIncludes errorMessage "404" || jsIncludes errorMessage "not found" then
      .ok { domain := domain, available := true, status := .available, method := .rdap
            error := none, registrationData := some .nullData, domainInfo := none }
    else
      .error e

/-! ## Legacy (WHOIS) lookup path (source: `checkDomainWithWhois`) -/

/-- Source list `availablePatterns` of thirteen availability phrases. -/
def availablePatterns : List String :=
  [ "no match"
  , "not found"
  , "no data found"
  , "status: available"
  , "domain not found"
  , "no entries found"
  , "domain status: available"
  , "not registered"
  , "is available"
  , "object does not exist"
  , "domain name not known"
  , "no such domain"
  , "domain is not registered" ]

/-- Source `checkDomainWithWhois(domain)`.  `call` is the outcome of
`retryWithBackoff(() => whoisLookup(domain))`.  The source wraps its whole
body in try/catch, so the function is total: it never re-raises. -/
def checkDomainWithWhois (env : JsEnv) (domain : String)
    (call : Except String WhoisPayload) : DomainCheckResult :=
  match call with
  | .ok result =>
    if !result.truthy then
      { domain := domain, available := true, status := .available, method := .whois
        error := none, registrationData := some .nullData, domainInfo := none }
    else
      let whoisText := result.text
      let lowerWhois := jsToLower whoisText
      if jsIncludes lowerWhois "rate limit" || jsIncludes lowerWhois "too many requests" ||
          jsIncludes lowerWhois "quota exceeded" then
        { domain := domain, available := false, status := .rate_limited, method := .whois
          error := some "Rate limited by WHOIS server"
          registrationData := some (.whoisData result), domainInfo := none }
      else
        let isAvailable := availablePatterns.any (fun pattern => jsIncludes lowerWhois pattern)
        let startsWithNotFound := jsStartsWith (jsToLower (jsTrim whoisText)) "domain not found"
        let isSuspiciouslyShort :=
          decide (jsLength (jsTrim whoisText) < 100) && !jsIncludes lowerWhois "registrar"
        if isAvailable || isSuspiciouslyShort || startsWithNotFound then
          { domain := domain, available := true, status := .available, method := .whois
            error := none, registrationData := some .nullData, domainInfo := none }
        else
          { domain := domain, available := false, status := .taken, method := .whois
            error := none, registrationData := some (.whoisData result)
            domainInfo := some (extractDomainInfoWhois env whoisText) }
  | .error e =>
    let lowerErrorMessage := jsToLower e
    if jsIncludes lowerErrorMessage "rate limit" ||
        jsIncludes lowerErrorMessage "too many requests" then
      { domain := domain, available := false, status := .rate_limited, method := .whois
        error := some "Rate limited by WHOIS server", registrationData := none
        domainInfo := none }
    else if jsTrim e = "" then
      { domain := domain, available := false, status := .unknown, method := .whois
        error := some "Empty error response from WHOIS", registrationData := none
        domainInfo := none }
    else
      { domain := domain, available := false, status := .unknown, method := .whois
        error := some e, registrationData := none, domainInfo := none }

/-! ## Single-domain resolver (source: `checkDomain`) -/

/-- Source normalization `domain.toLowerCase().trim()`. -/
def normalizeDomain (domain : String) : String :=
  jsTrim (jsToLower domain)

/-- Try/catch skeleton of source `checkDomain`: take the RDAP result; on its
raising, take the WHOIS result; on that raising too, the terminal result. -/
def checkDomainCatch (domain : String)
    (rdapRes whoisRes : Except String DomainCheckResult) : DomainCheckResult :=
  match rdapRes with
  | .ok r => r
  | .error _ =>
    match whoisRes with
    | .ok r => r
    | .error _ =>
      { domain := domain, available := false, status := .unknown, method := .whois
        error := some "Both RDAP and WHOIS checks failed", registrationData := none
        domainInfo := none }

/-- Source `checkDomain(domain)`: normalize, try RDAP, fall back to WHOIS.
Since the embedded WHOIS path is total, its outcome enters the skeleton
as `.ok`. -/
def checkDomain (env : JsEnv) (domain : String)
    (rdapCall : Except String (Option RdapRecord))
    (whoisCall : Except String WhoisPayload) : DomainCheckResult :=
  checkDomainCatch (normalizeDomain domain)
    (checkDomainWithRdap env (normalizeDomain domain) rdapCall)
    (.ok (checkDomainWithWhois env (normalizeDomain domain) whoisCall))

/-! ## Batch orchestrator, denotational form (source: `checkDomainsParallel`)

`Promise.all(domains.map(d => limit(() => checkDomain(d))))` resolves to the
per-domain results in input-index order; the concurrency bound only affects
scheduling, not the value. -/

/-- Source `checkDomainsParallel(domains, concurrency)`, as the value the
returned promise resolves to.  The lookup-call oracles are keyed by the raw
input domain string. -/
def checkDomainsParallel (env : JsEnv)
    (rdapOracle : String → Except String (Option RdapRecord))
    (whoisOracle : String → Except String WhoisPayload)
    (domains : List String) (_concurrency : Nat) : List DomainCheckResult :=
  domains.map (fun domain => checkDomain env domain (rdapOracle domain) (whoisOracle domain))

/-! ## Batch orchestrator, operational form

Modelled from the spec: the admission gate of the worker pool
(`p-limit`, an external dependency whose code is not part of this
repository) is described in the spec as a counting admission gate — a new
domain's lookup task starts only while fewer than `concurrency` tasks are
outstanding, a completing task admits the next queued domain, and each
task's eventual result is held in its input-indexed slot.  The following
small-step relation formalizes exactly that; `resolve i` abstracts the
(never-raising) single-domain lookup for input index `i`. -/

/-- State of a batch run: indices not yet started (in input order), indices
currently in flight, and the input-indexed result slots. -/
structure BatchState where
  queue : List Nat
  running : List Nat
  results : List (Option DomainCheckResult)
deriving DecidableEq, Repr

/-- Initial state for a batch of `n` domains: all indices queued, nothing
running, all slots empty. -/
def initBatch (n : Nat) : BatchState :=
  { queue := List.range n, running := [], results := List.replicate n none }

/-- Modelled from the spec: one scheduler step of the batch orchestrator
under concurrency bound `C`.  `start` admits the head of the queue only
while fewer than `C` tasks are outstanding; `finish` lets any in-flight
task (at an arbitrary position, modelling arbitrary completion order)
complete and write its result into its input-indexed slot. -/
inductive BatchStep (resolve : Nat → DomainCheckResult) (C : Nat) :
    BatchState → BatchState → Prop where
  | start (i : Nat) (q : List Nat) (s : BatchState) :
      s.queue = i :: q → s.running.length < C →
      BatchStep resolve C s
        { queue := q, running := s.running ++ [i], results := s.results }
  | finish (l1 l2 : List Nat) (i : Nat) (s : BatchState) :
      s.running = l1 ++ i :: l2 →
      BatchStep resolve C s
        { queue := s.queue, running := l1 ++ l2
          results := s.results.set i (some (resolve i)) }

/-- Reachability of a batch state from the initial state by scheduler
steps. -/
def BatchReach (resolve : Nat → DomainCheckResult) (C n : Nat)
    (s : BatchState) : Prop :=
  Relation.ReflTransGen (BatchStep resolve C) (initBatch n) s

/-- Per-index resolver used when the batch model is instantiated with the
real single-domain resolver over an input list. -/
def batchResolve (env : JsEnv)
    (rdapOracle : String → Except String (Option RdapRecord))
    (whoisOracle : String → Except String WhoisPayload)
    (domains : List String) : Nat → DomainCheckResult :=
  fun i =>
    let d := domains.getD i ""
    checkDomain env d (rdapOracle d) (whoisOracle d)

/-! ## Output filtering and tool summaries (source: `index.ts`) -/

/-- Source helper reading `result.registrationData?.errorCode`. -/
def rawErrorCode (rd : Option RawData) : Option Int :=
  match rd with
  | some (.rdapData r) => r.errorCode
  | _ => none

/-- Source `filterRegistrationData(result, includeRawResponse)`: drop the
raw payload unless the caller asked for it, the status is suspicious, a
non-empty error is present, or the result is available on the strength of a
truthy RDAP error code other than 404. -/
def filterRegistrationData (result : DomainCheckResult)
    (includeRawResponse : Bool) : DomainCheckResult :=
  let ec := rawErrorCode result.registrationData
  let shouldIncludeRaw := includeRawResponse
    || result.status == .unknown
    || result.status == .rate_limited
    || jsTruthyStr result.error
    || (result.available &&
          (match ec with
           | some c => c != 0 && c != 404
           | none => false))
  if !shouldIncludeRaw then
    { result with registrationData := none }
  else
    result

/-- Per-name sub-summary of the `check_names_extensions` tool response (the
`groupedResults[name]` object). -/
structure NameSummary where
  total : Nat
  available : Nat
  taken : Nat
  errors : Nat
  rateLimited : Nat
  unknown : Nat
  domains : List DomainCheckResult
deriving DecidableEq, Repr

/-- Source counting block shared by the summary objects: filters on
truthy `available`, on each status, and on a truthy `error`. -/
def nameSummaryOf (rs : List DomainCheckResult) : NameSummary :=
  { total := rs.length
    available := (rs.filter (fun r => r.available)).length
    taken := (rs.filter (fun r => r.status == DomainStatus.taken)).length
    errors := (rs.filter (fun r => jsTruthyStr r.error)).length
    rateLimited := (rs.filter (fun r => r.status == DomainStatus.rate_limited)).length
    unknown := (rs.filter (fun r => r.status == DomainStatus.unknown)).length
    domains := rs }

/-- Top-level summary of the `check_names_extensions` tool response.
`resultsByName` is the `groupedResults` record in `names` order. -/
structure NamesExtSummary where
  totalNames : Nat
  totalExtensions : Nat
  totalChecks : Nat
  availableTotal : Nat
  takenTotal : Nat
  errorsTotal : Nat
  rateLimitedTotal : Nat
  unknownTotal : Nat
  resultsByName : List (String × NameSummary)
deriving DecidableEq, Repr

/-- Source domain generation of the `check_names_extensions` handler: the
nested loops over `names` then `extensions`, pushing `name + "." + ext`. -/
def crossDomains (names extensions : List String) : List String :=
  names.flatMap (fun name => extensions.map (fun ext => name ++ "." ++ ext))

/-- Source `check_names_extensions` tool handler (after argument
validation): build the cross-product domain list, run the batch, filter
each result, then compute global totals and per-name groups (a result is
grouped under `name` when its — normalized — `domain` starts with
`name + "."`). -/
def check_names_extensions (env : JsEnv)
    (rdapOracle : String → Except String (Option RdapRecord))
    (whoisOracle : String → Except String WhoisPayload)
    (names extensions : List String) (concurrency : Nat)
    (includeRawResponse : Bool) : NamesExtSummary :=
  let domains := crossDomains names extensions
  let results := checkDomainsParallel env rdapOracle whoisOracle domains concurrency
  let filteredResults := results.map (fun r => filterRegistrationData r includeRawResponse)
  let groupedResults := names.map (fun name =>
    (name, nameSummaryOf (filteredResults.filter
      (fun r => jsStartsWith r.domain (name ++ ".")))))
  { totalNames := names.length
    totalExtensions := extensions.length
    totalChecks := filteredResults.length
    availableTotal := (filteredResults.filter (fun r => r.available)).length
    takenTotal := (filteredResults.filter (fun r => r.status == DomainStatus.taken)).length
    errorsTotal := (filteredResults.filter (fun r => jsTruthyStr r.error)).length
    rateLimitedTotal :=
      (filteredResults.filter (fun r => r.status == DomainStatus.rate_limited)).length
    unknownTotal := (filteredResults.filter (fun r => r.status == DomainStatus.unknown)).length
    resultsByName := groupedResults }

/-! ## Spec-side definitions used for refinement comparisons -/

/-- Definition following the claim wording for the WHOIS success
classification (C5): available iff one of the thirteen availability phrases
occurs in the lower-cased text, or the trimmed text starts
(case-insensitively) with "domain not found", or the trimmed text is
shorter than 100 characters and does not contain "registrar" (containment
read case-insensitively like every other test of this classifier; the
trimming is interposed around the case-folded text, which cannot change
the verdict since "registrar" neither starts nor ends with whitespace). -/
def specWhoisAvailable (whoisText : String) : Bool :=
  availablePatterns.any (fun pattern => jsIncludes (jsToLower whoisText) pattern) ||
  jsStartsWith (jsToLower (jsTrim whoisText)) "domain not found" ||
  (decide (jsLength (jsTrim whoisText) < 100) &&
    !jsIncludes (jsTrim (jsToLower whoisText)) "registrar")

/-- Definition following the amended claim wording for the output filter
(C8): drop the raw payload iff the caller did not ask for it, the status is
neither unknown nor rate_limited, no non-empty error string is present, and
the result is not an available result whose raw payload carries a truthy
(non-zero) error-code field other than 404. -/
def specFilterDrops (r : DomainCheckResult) (inc : Bool) : Bool :=
  !inc && !(r.status == DomainStatus.unknown) && !(r.status == DomainStatus.rate_limited) &&
    !jsTruthyStr r.error &&
    !(r.available &&
      (match rawErrorCode r.registrationData with
       | some c => c != 0 && c != 404
       | none => false))

/-! ## Invariant of the batch scheduler -/

/-- Inductive invariant of the batch scheduler: result slots are sized to
the input, no index is queued or running twice, queued/running indices are
in range, at most `C` tasks are in flight, and a slot is filled with its
input-indexed result exactly when its index is neither queued nor
running. -/
def BatchInv (resolve : Nat → DomainCheckResult) (C n : Nat) (s : BatchState) : Prop :=
  s.results.length = n ∧
  (s.queue ++ s.running).Nodup ∧
  (∀ i ∈ s.queue ++ s.running, i < n) ∧
  s.running.length ≤ C ∧
  (∀ i, i < n →
    s.results[i]? =
      some (if i ∈ s.queue ++ s.running then none else some (resolve i)))

/-! ## Concrete sample objects used to instantiate hypothesis-bearing
theorems -/

/-- Concrete JS runtime environment (fixed clock, no date parsing). -/
def sampleEnv : JsEnv :=
  { now := 0, parseDate := fun _ => none, toISO := fun _ => "" }

/-- RDAP oracle answering every domain with a null payload. -/
def sampleRdapOracle : String → Except String (Option RdapRecord) :=
  fun _ => .ok none

/-- WHOIS oracle answering every domain with a null payload. -/
def sampleWhoisOracle : String → Except String WhoisPayload :=
  fun _ => .ok WhoisPayload.nullP

/-- Arbitrary fixed per-index resolver for scheduler instantiations. -/
def sampleResolve : Nat → DomainCheckResult :=
  fun _ =>
    { domain := "", available := false, status := .unknown, method := .whois
      error := none, registrationData := none, domainInfo := none }

/-! ## General lemmas about the string primitives -/

/-- Correctness of the executable substring test. -/
theorem containsSeq_iff (l pat : List Char) : containsSeq l pat = true ↔ pat <:+: l := by
  induction l with
  | nil => simp [containsSeq, List.infix_nil, List.isEmpty_iff]
  | cons c rest ih =>
    simp only [containsSeq, Bool.or_eq_true, List.isPrefixOf_iff_prefix, ih,
      List.infix_cons_iff]

/-- A pattern whose first character is not dropped by the predicate occurs
in `l.dropWhile w` exactly when it occurs in `l`. -/
theorem infix_dropWhile_iff (w : Char → Bool) (p l : List Char) (c0 : Char)
    (hp : p.head? = some c0) (hc : w c0 = false) :
    p <:+: l.dropWhile w ↔ p <:+: l := by
  constructor
  · intro h
    exact h.trans (List.dropWhile_suffix w).isInfix
  · intro h
    induction l with
    | nil => simpa using h
    | cons a t ih =>
      rw [List.dropWhile_cons]
      by_cases hw : w a = true
      · simp only [hw, if_true]
        rcases List.infix_cons_iff.mp h with hpre | hinf
        · rcases List.prefix_cons_iff.mp hpre with hnil | ⟨t2, hpt, _⟩
          · rw [hnil] at hp; simp at hp
          · rw [hpt] at hp
            simp only [List.head?_cons, Option.some.injEq] at hp
            rw [hp] at hw
            rw [hc] at hw
            cases hw
        · exact ih hinf
      · simp only [hw, if_false]
        exact h

/-- A pattern that neither starts nor ends with whitespace occurs in the
trimmed list exactly when it occurs in the original list. -/
theorem infix_trimChars_iff (p l : List Char) (c0 cn : Char)
    (hp : p.head? = some c0) (hc : c0.isWhitespace = false)
    (hq : p.reverse.head? = some cn) (hcn : cn.isWhitespace = false) :
    p <:+: trimChars l ↔ p <:+: l := by
  unfold trimChars
  rw [show p = p.reverse.reverse by simp, List.reverse_infix]
  rw [infix_dropWhile_iff Char.isWhitespace p.reverse _ cn hq hcn]
  rw [← List.reverse_infix]
  simp only [List.reverse_reverse]
  exact infix_dropWhile_iff Char.isWhitespace p _ c0 hp hc

/-- The `registrar` containment test is insensitive to trimming. -/
theorem jsIncludes_trim_registrar (s : String) :
    jsIncludes (jsTrim s) "registrar" = jsIncludes s "registrar" := by
  have h := infix_trimChars_iff ("registrar".toList) s.toList 'r' 'r'
    rfl (by decide) (by decide) (by decide)
  rw [Bool.eq_iff_iff]
  unfold jsIncludes jsTrim
  rw [containsSeq_iff, containsSeq_iff]
  simpa using h

/-! ## C1: the single-domain resolver is total and falls back -/

/-- C1: for every input domain the single-domain resolver returns a
DomainCheckResult whose status is one of the four enumerated values; when
the RDAP path propagates an error the result is exactly the WHOIS path's
result; and the defensive double-failure arm of the try/catch skeleton
yields the terminal unknown/legacy result with the both-checks-failed
error message. -/
theorem C1_resolver_total_and_fallback (env : JsEnv) (domain : String)
    (rdapCall : Except String (Option RdapRecord))
    (whoisCall : Except String WhoisPayload) :
    ((checkDomain env domain rdapCall whoisCall).status = .available ∨
     (checkDomain env domain rdapCall whoisCall).status = .taken ∨
     (checkDomain env domain rdapCall whoisCall).status = .unknown ∨
     (checkDomain env domain rdapCall whoisCall).status = .rate_limited) ∧
    (∀ e, checkDomainWithRdap env (normalizeDomain domain) rdapCall = .error e →
      checkDomain env domain rdapCall whoisCall =
        checkDomainWithWhois env (normalizeDomain domain) whoisCall) ∧
    (∀ d r w, (∃ e, r = Except.error e) → (∃ e2, w = Except.error e2) →
      checkDomainCatch d r w =
        { domain := d, available := false, status := .unknown, method := .whois
          error := some "Both RDAP and WHOIS checks failed", registrationData := none
          domainInfo := none }) := by
  refine ⟨?_, ?_, ?_⟩
  · generalize (checkDomain env domain rdapCall whoisCall).status = s
    cases s <;> simp
  · intro e h
    unfold checkDomain
    rw [h]
    rfl
  · rintro d r w ⟨e, rfl⟩ ⟨e2, rfl⟩
    rfl

/-- Closed instantiation of the hypothesis-bearing parts of C1: a raw RDAP
network failure makes the resolver return the WHOIS result, and a double
failure in the skeleton yields the terminal result. -/
theorem C1_witness :
    checkDomain sampleEnv "Example.COM " (.error "connection reset")
        (.ok (.strP "no match for example.com")) =
      checkDomainWithWhois sampleEnv "example.com"
        (.ok (.strP "no match for example.com")) ∧
    checkDomainCatch "x.com" (.error "a") (.error "b") =
      { domain := "x.com", available := false, status := .unknown, method := .whois
        error := some "Both RDAP and WHOIS checks failed", registrationData := none
        domainInfo := none } := by
  constructor
  · have h := (C1_resolver_total_and_fallback sampleEnv "Example.COM "
        (.error "connection reset") (.ok (.strP "no match for example.com"))).2.1
        "connection reset" (by decide)
    have hn : normalizeDomain "Example.COM " = "example.com" := by decide
    rw [hn] at h
    exact h
  · exact (C1_resolver_total_and_fallback sampleEnv "" (.error "") (.error "")).2.2
      "x.com" (.error "a") (.error "b") ⟨"a", rfl⟩ ⟨"b", rfl⟩

/-! ## C2: `available` is `true` exactly on status `available` -/

/-- C2: every result produced by the RDAP path, the WHOIS path or the
composed resolver has `available = true` iff its status is `available`. -/
theorem C2_available_iff_status (env : JsEnv) :
    (∀ domain call r, checkDomainWithRdap env domain call = .ok r →
      (r.available = true ↔ r.status = .available)) ∧
    (∀ domain call, ((checkDomainWithWhois env domain call).available = true ↔
      (checkDomainWithWhois env domain call).status = .available)) ∧
    (∀ domain rdapCall whoisCall,
      ((checkDomain env domain rdapCall whoisCall).available = true ↔
       (checkDomain env domain rdapCall whoisCall).status = .available)) := by
  have hrdap : ∀ domain call r, checkDomainWithRdap env domain call = .ok r →
      (r.available = true ↔ r.status = .available) := by
    intro domain call r h
    cases call with
    | ok p =>
      cases p with
      | none =>
        simp only [checkDomainWithRdap] at h
        split at h <;> (cases h; simp)
      | some rec =>
        simp only [checkDomainWithRdap] at h
        split at h
        · cases h; simp
        · split at h
          · cases h; simp
          · split at h
            · split at h <;> (cases h; simp)
            · cases h; simp
    | error e =>
      simp only [checkDomainWithRdap] at h
      split at h
      · cases h; simp
      · split at h
        · cases h; simp
        · simp at h
  have hwhois : ∀ domain call, ((checkDomainWithWhois env domain call).available = true ↔
      (checkDomainWithWhois env domain call).status = .available) := by
    intro domain call
    cases call with
    | ok p =>
      simp only [checkDomainWithWhois]
      split
      · simp
      · split
        · simp
        · split <;> simp
    | error e =>
      simp only [checkDomainWithWhois]
      split
      · simp
      · split <;> simp
  refine ⟨hrdap, hwhois, ?_⟩
  intro domain rdapCall whoisCall
  have heq : checkDomain env domain rdapCall whoisCall =
      checkDomainCatch (normalizeDomain domain)
        (checkDomainWithRdap env (normalizeDomain domain) rdapCall)
        (.ok (checkDomainWithWhois env (normalizeDomain domain) whoisCall)) := rfl
  rw [heq]
  cases hcall : checkDomainWithRdap env (normalizeDomain domain) rdapCall with
  | ok r => exact hrdap _ _ _ hcall
  | error e => exact hwhois _ _

/-- Closed instantiation of the hypothesis-bearing part of C2 at a concrete
RDAP-path result. -/
theorem C2_witness :
    (({ domain := "a.com", available := true, status := .available, method := .rdap
        error := none, registrationData := some .nullData
        domainInfo := none } : DomainCheckResult).available = true ↔
     ({ domain := "a.com", available := true, status := .available, method := .rdap
        error := none, registrationData := some .nullData
        domainInfo := none } : DomainCheckResult).status = .available) :=
  (C2_available_iff_status sampleEnv).1 "a.com" (.ok none) _ (by decide)

/-! ## C7: classification of WHOIS call failures -/

/-- C7 counterexample: a whitespace-only raised message is classified as
unknown, but with the error string "Empty error response from WHOIS" — not
the claim's "Empty error response". -/
theorem C7_counterexample :
    (checkDomainWithWhois sampleEnv "x.com" (.error "   ")).status = DomainStatus.unknown ∧
    isRateLimitedMessage "   " = false ∧
    jsTrim "   " = "" ∧
    (checkDomainWithWhois sampleEnv "x.com" (.error "   ")).error =
      some "Empty error response from WHOIS" ∧
    (checkDomainWithWhois sampleEnv "x.com" (.error "   ")).error ≠
      some "Empty error response" := by
  decide

/-- C7 (amended): when the WHOIS call raises, the path never re-raises; a
rate-limit-shaped message yields rate_limited, an empty or whitespace-only
message yields unknown with error "Empty error response from WHOIS", and
any other message yields unknown with the raised message as the error
string. -/
theorem C7_whois_error_classification (env : JsEnv) (domain e : String) :
    (isRateLimitedMessage e = true →
      checkDomainWithWhois env domain (.error e) =
        { domain := domain, available := false, status := .rate_limited, method := .whois
          error := some "Rate limited by WHOIS server", registrationData := none
          domainInfo := none }) ∧
    (isRateLimitedMessage e = false → jsTrim e = "" →
      checkDomainWithWhois env domain (.error e) =
        { domain := domain, available := false, status := .unknown, method := .whois
          error := some "Empty error response from WHOIS", registrationData := none
          domainInfo := none }) ∧
    (isRateLimitedMessage e = false → jsTrim e ≠ "" →
      checkDomainWithWhois env domain (.error e) =
        { domain := domain, available := false, status := .unknown, method := .whois
          error := some e, registrationData := none, domainInfo := none }) := by
  have hcond : (jsIncludes (jsToLower e) "rate limit" ||
      jsIncludes (jsToLower e) "too many requests") = isRateLimitedMessage e := rfl
  refine ⟨?_, ?_, ?_⟩
  · intro h1
    simp only [checkDomainWithWhois, hcond, h1, if_true]
  · intro h1 h2
    simp only [checkDomainWithWhois, hcond, h1, h2, if_true, Bool.false_eq_true, if_false]
  · intro h1 h2
    simp only [checkDomainWithWhois, hcond, h1, h2, Bool.false_eq_true, if_false, if_neg h2]

/-- Closed instantiation of C7 (amended) at each of the three error
shapes. -/
theorem C7_witness :
    checkDomainWithWhois sampleEnv "a.com" (.error "429 Too Many Requests") =
      { domain := "a.com", available := false, status := .rate_limited, method := .whois
        error := some "Rate limited by WHOIS server", registrationData := none
        domainInfo := none } ∧
    checkDomainWithWhois sampleEnv "a.com" (.error " ") =
      { domain := "a.com", available := false, status := .unknown, method := .whois
        error := some "Empty error response from WHOIS", registrationData := none
        domainInfo := none } ∧
    checkDomainWithWhois sampleEnv "a.com" (.error "socket hang up") =
      { domain := "a.com", available := false, status := .unknown, method := .whois
        error := some "socket hang up", registrationData := none, domainInfo := none } :=
  ⟨(C7_whois_error_classification sampleEnv "a.com" "429 Too Many Requests").1 (by decide),
   (C7_whois_error_classification sampleEnv "a.com" " ").2.1 (by decide) (by decide),
   (C7_whois_error_classification sampleEnv "a.com" "socket hang up").2.2 (by decide)
     (by decide)⟩

/-! ## C6: the backoff retrier -/

/-- Behaviour of the retry loop when every remaining attempt fails with a
rate-limit-shaped message: it uses up all remaining attempts, sleeping the
exponential-backoff delay after each non-final one, and ends with the last
attempt's failure. -/
theorem retryLoop_all_rate_limited (op : Nat → Except String α) (maxRetries : Nat)
    (err : Nat → String)
    (hop : ∀ k, k < maxRetries → op k = .error (err k))
    (hrl : ∀ k, k < maxRetries → isRateLimitedMessage (err k) = true) :
    ∀ remaining attempt last, remaining + attempt = maxRetries → 0 < remaining →
      retryLoop op maxRetries remaining attempt last =
        (.error (err (maxRetries - 1)), remaining,
          (List.range' attempt (remaining - 1)).map
            (fun i => INITIAL_DELAY * BACKOFF_MULTIPLIER ^ i)) := by
  intro remaining
  induction remaining with
  | zero => intro attempt last hsum hpos; exact absurd hpos (by simp)
  | succ rem ih =>
    intro attempt last hsum hpos
    have hatt : attempt < maxRetries := by omega
    rw [retryLoop, hop attempt hatt]
    by_cases hlt : attempt < maxRetries - 1
    · have hrem : 0 < rem := by omega
      have hdec : decide (attempt < maxRetries - 1) = true := by simpa using hlt
      simp only [hrl attempt hatt, hdec, Bool.and_self, if_true]
      rw [ih (attempt + 1) (some (err attempt)) (by omega) hrem]
      rw [show (rem + 1 - 1) = (rem - 1) + 1 by omega, List.range'_succ]
      simp
    · have hrem : rem = 0 := by omega
      have hattv : attempt = maxRetries - 1 := by omega
      have hdec : decide (attempt < maxRetries - 1) = false := by simpa using hlt
      simp only [hrl attempt hatt, hdec, Bool.and_false, Bool.false_eq_true, if_false]
      subst hrem
      simp [hattv]

/-- C6: an operation whose failures are all rate-limit-shaped is attempted
exactly `maxRetries` times, with sleeps of `initialDelay * multiplier^i`
(i = 0, 1, ...) between consecutive attempts, after which the final failure
is propagated; a failure that is not rate-limit-shaped is propagated after
the very first attempt with no sleep at all.  Under the source default
configuration (maxRetries = 3, initialDelay = 1000 ms, multiplier = 2) the
sleeps are 1000 ms then 2000 ms. -/
theorem C6_backoff_retrier (op : Nat → Except String α) (maxRetries : Nat)
    (hm : 1 ≤ maxRetries) :
    (∀ err : Nat → String,
      (∀ k, k < maxRetries → op k = .error (err k)) →
      (∀ k, k < maxRetries → isRateLimitedMessage (err k) = true) →
      retryWithBackoff op maxRetries =
        (.error (err (maxRetries - 1)), maxRetries,
          (List.range (maxRetries - 1)).map
            (fun i => INITIAL_DELAY * BACKOFF_MULTIPLIER ^ i))) ∧
    (∀ e, op 0 = .error e → isRateLimitedMessage e = false →
      retryWithBackoff op maxRetries = (.error e, 1, [])) := by
  constructor
  · intro err hop hrl
    unfold retryWithBackoff
    rw [retryLoop_all_rate_limited op maxRetries err hop hrl maxRetries 0 none (by omega)
      (by omega)]
    rw [List.range_eq_range']
  · intro e hop hnrl
    obtain ⟨m, rfl⟩ : ∃ m, maxRetries = m + 1 := ⟨maxRetries - 1, by omega⟩
    unfold retryWithBackoff
    rw [retryLoop, hop]
    simp [hnrl]

/-- Closed instantiation of C6 under the default configuration: three
rate-limited attempts with sleeps of 1000 ms and 2000 ms, and immediate
propagation of a non-rate-limit failure. -/
theorem C6_witness :
    retryWithBackoff (fun _ => (.error "rate limit exceeded" : Except String Nat))
        MAX_RETRIES =
      (.error "rate limit exceeded", 3, [1000, 2000]) ∧
    retryWithBackoff (fun _ => (.error "ECONNRESET" : Except String Nat)) MAX_RETRIES =
      (.error "ECONNRESET", 1, []) := by
  constructor
  · exact ((C6_backoff_retrier (fun _ => (.error "rate limit exceeded" : Except String Nat))
      MAX_RETRIES (by decide)).1 (fun _ => "rate limit exceeded") (fun _ _ => rfl)
      (fun _ _ =>
        (by decide : isRateLimitedMessage "rate limit exceeded" = true))).trans (by decide)
  · exact (C6_backoff_retrier (fun _ => (.error "ECONNRESET" : Except String Nat))
      MAX_RETRIES (by decide)).2 "ECONNRESET" rfl (by decide)

/-! ## C4: RDAP success-payload classification, first match wins -/

/-- C4: on a successful RDAP call the payload is classified in order:
(4) null/empty payload is available with null raw data; (5) otherwise an
error-code of 404 or a not-found title is available with the payload kept;
(6) otherwise an error-code in [400,500) is available; (7) otherwise an
error-code of at least 500 is unknown with the error taken from the title
or the generic server-error message; (8) otherwise the record is taken,
with the payload kept and the extractor's DomainInfo attached. -/
theorem C4_rdap_classification (env : JsEnv) (domain : String) :
    (∀ p, rdapNullOrEmpty p = true →
      checkDomainWithRdap env domain (.ok p) =
        .ok { domain := domain, available := true, status := .available, method := .rdap
              error := none, registrationData := some .nullData, domainInfo := none }) ∧
    (∀ r : RdapRecord, rdapNullOrEmpty (some r) = false →
      (r.errorCode = some 404 ∨ titleSaysNotFound r.title = true) →
      checkDomainWithRdap env domain (.ok (some r)) =
        .ok { domain := domain, available := true, status := .available, method := .rdap
              error := none, registrationData := some (.rdapData r), domainInfo := none }) ∧
    (∀ (r : RdapRecord) (c : Int), rdapNullOrEmpty (some r) = false →
      r.errorCode ≠ some 404 → titleSaysNotFound r.title = false →
      r.errorCode = some c → 400 ≤ c → c < 500 →
      checkDomainWithRdap env domain (.ok (some r)) =
        .ok { domain := domain, available := true, status := .available, method := .rdap
              error := none, registrationData := some (.rdapData r), domainInfo := none }) ∧
    (∀ (r : RdapRecord) (c : Int), rdapNullOrEmpty (some r) = false →
      titleSaysNotFound r.title = false →
      r.errorCode = some c → 500 ≤ c →
      checkDomainWithRdap env domain (.ok (some r)) =
        .ok { domain := domain, available := false, status := .unknown, method := .rdap
              error := some (jsStringOr r.title "RDAP server error")
              registrationData := some (.rdapData r), domainInfo := none }) ∧
    (∀ r : RdapRecord, rdapNullOrEmpty (some r) = false →
      r.errorCode ≠ some 404 → titleSaysNotFound r.title = false →
      (∀ c, r.errorCode = some c → c < 400) →
      checkDomainWithRdap env domain (.ok (some r)) =
        .ok { domain := domain, available := false, status := .taken, method := .rdap
              error := none, registrationData := some (.rdapData r)
              domainInfo := some (extractDomainInfoRdap env r) }) := by
  refine ⟨?_, ?_, ?_, ?_, ?_⟩
  · intro p hempty
    cases p with
    | none => rfl
    | some r => simp only [checkDomainWithRdap, hempty, if_true]
  · intro r hne hcase
    have hbeq : (r.errorCode == some 404 || titleSaysNotFound r.title) = true := by
      rcases hcase with hc | ht
      · simp [hc]
      · simp [ht]
    simp only [checkDomainWithRdap, hne, Bool.false_eq_true, if_false, hbeq, if_true]
  · intro r c hne h404 htitle hc h400 h500
    have hc404 : c ≠ 404 := fun hEq => h404 (by rw [hc, hEq])
    have hbeq : (r.errorCode == some 404 || titleSaysNotFound r.title) = false := by
      simp [htitle, hc, hc404]
    have hge : errorCodeAtLeast400 r.errorCode = true := by
      simp [errorCodeAtLeast400, hc]
      omega
    have hlt : r.errorCode.getD 0 < 500 := by rw [hc]; simpa using h500
    simp only [checkDomainWithRdap, hne, Bool.false_eq_true, if_false, hbeq, hge, if_true,
      hlt]
  · intro r c hne htitle hc h500
    have hbeq : (r.errorCode == some 404 || titleSaysNotFound r.title) = false := by
      simp [htitle, hc]
      omega
    have hge : errorCodeAtLeast400 r.errorCode = true := by
      simp [errorCodeAtLeast400, hc]
      omega
    have hlt : ¬ r.errorCode.getD 0 < 500 := by rw [hc]; simpa using h500
    simp only [checkDomainWithRdap, hne, Bool.false_eq_true, if_false, hbeq, hge, if_true,
      hlt]
  · intro r hne h404 htitle hsmall
    have hbeq : (r.errorCode == some 404 || titleSaysNotFound r.title) = false := by
      cases hec : r.errorCode with
      | none => simp [htitle]
      | some c =>
        have := hsmall c hec
        simp [htitle, hec]
        omega
    have hge : errorCodeAtLeast400 r.errorCode = false := by
      cases hec : r.errorCode with
      | none => simp [errorCodeAtLeast400]
      | some c =>
        have := hsmall c hec
        simp [errorCodeAtLeast400]
        omega
    simp only [checkDomainWithRdap, hne, Bool.false_eq_true, if_false, hbeq, hge]

/-- Closed instantiation of C4 at a null payload (case 4), a 404 error-code
payload (case 5) and a 503 error-code payload (case 7). -/
theorem C4_witness :
    checkDomainWithRdap sampleEnv "x.com" (.ok none) =
      .ok { domain := "x.com", available := true, status := .available, method := .rdap
            error := none, registrationData := some .nullData, domainInfo := none } ∧
    checkDomainWithRdap sampleEnv "x.com"
        (.ok (some { RdapRecord.empty with errorCode := some 404 })) =
      .ok { domain := "x.com", available := true, status := .available, method := .rdap
            error := none
            registrationData :=
              some (.rdapData { RdapRecord.empty with errorCode := some 404 })
            domainInfo := none } ∧
    checkDomainWithRdap sampleEnv "x.com"
        (.ok (some { RdapRecord.empty with
                      errorCode := some 503, title := some "Service Unavailable" })) =
      .ok { domain := "x.com", available := false, status := .unknown, method := .rdap
            error := some (jsStringOr (some "Service Unavailable") "RDAP server error")
            registrationData :=
              some (.rdapData { RdapRecord.empty with
                                 errorCode := some 503, title := some "Service Unavailable" })
            domainInfo := none } :=
  ⟨(C4_rdap_classification sampleEnv "x.com").1 none (by decide),
   (C4_rdap_classification sampleEnv "x.com").2.1
     { RdapRecord.empty with errorCode := some 404 } (by decide) (Or.inl (by decide)),
   (C4_rdap_classification sampleEnv "x.com").2.2.2.1
     { RdapRecord.empty with errorCode := some 503, title := some "Service Unavailable" }
     503 (by decide) (by decide) (by decide) (by decide)⟩

/-! ## C5: WHOIS success-path availability classification -/

/-- C5: on a successful, truthy WHOIS response with no rate-limit
indicator in its text, the result is available (with null raw data) exactly
when the claim's availability condition `specWhoisAvailable` holds — one of
the thirteen phrases occurs in the lower-cased text, the trimmed text
starts case-insensitively with "domain not found", or the trimmed text is
shorter than 100 characters and free of "registrar" — and otherwise the
result is taken with the payload kept and the extractor's DomainInfo. -/
theorem C5_whois_success_classification (env : JsEnv) (domain : String) (p : WhoisPayload)
    (htruthy : p.truthy = true)
    (hrl1 : jsIncludes (jsToLower p.text) "rate limit" = false)
    (hrl2 : jsIncludes (jsToLower p.text) "too many requests" = false)
    (hrl3 : jsIncludes (jsToLower p.text) "quota exceeded" = false) :
    ((checkDomainWithWhois env domain (.ok p)).status = .available ↔
      specWhoisAvailable p.text = true) ∧
    (specWhoisAvailable p.text = true →
      checkDomainWithWhois env domain (.ok p) =
        { domain := domain, available := true, status := .available, method := .whois
          error := none, registrationData := some .nullData, domainInfo := none }) ∧
    (specWhoisAvailable p.text = false →
      checkDomainWithWhois env domain (.ok p) =
        { domain := domain, available := false, status := .taken, method := .whois
          error := none, registrationData := some (.whoisData p)
          domainInfo := some (extractDomainInfoWhois env p.text) }) := by
  have hcodecond :
      (availablePatterns.any (fun pattern => jsIncludes (jsToLower p.text) pattern) ||
        (decide (jsLength (jsTrim p.text) < 100) &&
          !jsIncludes (jsToLower p.text) "registrar") ||
        jsStartsWith (jsToLower (jsTrim p.text)) "domain not found") =
      specWhoisAvailable p.text := by
    unfold specWhoisAvailable
    rw [jsIncludes_trim_registrar (jsToLower p.text)]
    generalize availablePatterns.any (fun pattern => jsIncludes (jsToLower p.text) pattern) = A
    generalize (decide (jsLength (jsTrim p.text) < 100) &&
      !jsIncludes (jsToLower p.text) "registrar") = S
    generalize jsStartsWith (jsToLower (jsTrim p.text)) "domain not found" = N
    cases A <;> cases S <;> cases N <;> rfl
  have hred : checkDomainWithWhois env domain (.ok p) =
      (if specWhoisAvailable p.text then
        { domain := domain, available := true, status := .available, method := .whois
          error := none, registrationData := some .nullData, domainInfo := none }
      else
        { domain := domain, available := false, status := .taken, method := .whois
          error := none, registrationData := some (.whoisData p)
          domainInfo := some (extractDomainInfoWhois env p.text) }) := by
    simp only [checkDomainWithWhois, htruthy, Bool.not_true, Bool.false_eq_true, if_false,
      hrl1, hrl2, hrl3, Bool.or_false, Bool.false_or]
    rw [hcodecond]
  refine ⟨?_, ?_, ?_⟩
  · rw [hred]
    cases hspec : specWhoisAvailable p.text <;> simp
  · intro hspec
    rw [hred, hspec]
    rfl
  · intro hspec
    rw [hred, hspec]
    rfl

/-- Closed instantiation of C5: a 40-character response containing neither
an availability phrase nor "registrar" is classified available by the
short-body heuristic. -/
theorem C5_witness :
    (checkDomainWithWhois sampleEnv "x.com"
      (.ok (.strP "abcdefghij klmnopqrst uvwxyz 0123456789"))).status = .available :=
  ((C5_whois_success_classification sampleEnv "x.com"
    (.strP "abcdefghij klmnopqrst uvwxyz 0123456789")
    (by decide) (by decide) (by decide) (by decide)).1).mpr (by decide)

/-! ## C8: the raw-data output filter -/

/-- C8 counterexample: an available result whose raw RDAP payload carries
the error-code 0 — a value other than 404, so the claim requires the raw
data to be kept — is nevertheless stripped by the filter, because the
source tests the error-code with JS truthiness and 0 is falsy. -/
theorem C8_counterexample :
    (filterRegistrationData
      { domain := "x.com", available := true, status := .available, method := .rdap
        error := none
        registrationData := some (.rdapData { RdapRecord.empty with errorCode := some 0 })
        domainInfo := none } false).registrationData = none ∧
    ({ domain := "x.com", available := true, status := .available, method := .rdap
       error := none
       registrationData := some (.rdapData { RdapRecord.empty with errorCode := some 0 })
       domainInfo := none } : DomainCheckResult).available = true ∧
    rawErrorCode (some (.rdapData { RdapRecord.empty with errorCode := some 0 })) =
      some 0 ∧
    (0 : Int) ≠ 404 ∧
    DomainStatus.available ≠ DomainStatus.unknown ∧
    DomainStatus.available ≠ DomainStatus.rate_limited ∧
    some (RawData.rdapData { RdapRecord.empty with errorCode := some 0 }) ≠
      (none : Option RawData) := by
  decide

/-- C8 (amended): the filter drops the rawData field iff includeRawResponse
is false, the status is neither unknown nor rate_limited, no non-empty
error is present, and the result is not available with a truthy (non-zero)
raw error-code other than 404 (`specFilterDrops`); every other field is
returned unchanged. -/
theorem C8_filter_drops_iff (r : DomainCheckResult) (inc : Bool) :
    (filterRegistrationData r inc).registrationData =
      (if specFilterDrops r inc then none else r.registrationData) ∧
    (filterRegistrationData r inc).domain = r.domain ∧
    (filterRegistrationData r inc).available = r.available ∧
    (filterRegistrationData r inc).status = r.status ∧
    (filterRegistrationData r inc).method = r.method ∧
    (filterRegistrationData r inc).error = r.error ∧
    (filterRegistrationData r inc).domainInfo = r.domainInfo := by
  have hneg : specFilterDrops r inc =
      !(inc || r.status == DomainStatus.unknown || r.status == DomainStatus.rate_limited ||
        jsTruthyStr r.error ||
        (r.available &&
          (match rawErrorCode r.registrationData with
           | some c => c != 0 && c != 404
           | none => false))) := by
    unfold specFilterDrops
    cases inc <;>
      cases r.status <;>
        cases hte : jsTruthyStr r.error <;>
          cases hav : r.available <;>
            cases hec : rawErrorCode r.registrationData <;> simp [hte, hav, hec]
  simp only [filterRegistrationData]
  rw [← hneg]
  cases hs : specFilterDrops r inc <;> simp

/-! ## Scheduler invariant lemmas (shared by C3 and C10) -/

/-- The invariant holds in the initial batch state. -/
theorem batchInv_init (resolve : Nat → DomainCheckResult) (C n : Nat) :
    BatchInv resolve C n (initBatch n) := by
  refine ⟨by simp [initBatch], ?_, ?_, by simp [initBatch], ?_⟩
  · simp [initBatch, List.nodup_range]
  · intro i hi
    simp only [initBatch, List.append_nil, List.mem_range] at hi
    exact hi
  · intro i hi
    simp [initBatch, List.getElem?_replicate, hi, List.mem_range]

/-- The invariant is preserved by every scheduler step. -/
theorem batchInv_step (resolve : Nat → DomainCheckResult) (C n : Nat)
    (s s2 : BatchState) (hstep : BatchStep resolve C s s2)
    (hinv : BatchInv resolve C n s) : BatchInv resolve C n s2 := by
  obtain ⟨hlen, hnd, hbound, hrun, hres⟩ := hinv
  cases hstep with
  | start i q s hq hlt =>
    have hperm : List.Perm (q ++ (s.running ++ [i])) (s.queue ++ s.running) := by
      rw [hq, List.cons_append]
      exact (List.Perm.append_left q List.perm_append_comm).trans List.perm_middle
    refine ⟨hlen, ?_, ?_, ?_, ?_⟩
    · exact (hperm.nodup_iff).mpr hnd
    · intro j hj
      exact hbound j ((hperm.mem_iff).mp hj)
    · simp only [List.length_append, List.length_cons, List.length_nil]
      omega
    · intro j hjn
      by_cases hmem : j ∈ s.queue ++ s.running
      · rw [hres j hjn, if_pos hmem, if_pos ((hperm.mem_iff).mpr hmem)]
      · rw [hres j hjn, if_neg hmem, if_neg (fun hx => hmem ((hperm.mem_iff).mp hx))]
  | finish l1 l2 i s hsplit =>
    have hnd2 : (s.queue ++ (l1 ++ i :: l2)).Nodup := by rw [← hsplit]; exact hnd
    have hsub : (s.queue ++ (l1 ++ l2)).Sublist (s.queue ++ (l1 ++ i :: l2)) :=
      List.Sublist.append_left
        (List.Sublist.append_left (List.sublist_cons_self i l2) l1) s.queue
    have hndnew : (s.queue ++ (l1 ++ l2)).Nodup := List.Nodup.sublist hsub hnd2
    have himem : i ∈ s.queue ++ s.running := by
      rw [hsplit]; simp
    have hin : i < n := hbound i himem
    have hi_not : i ∉ s.queue ++ (l1 ++ l2) := by
      simp only [List.nodup_append, List.nodup_cons, List.disjoint_append_right,
        List.disjoint_cons_right, List.mem_append] at hnd2
      simp only [List.mem_append]
      tauto
    refine ⟨?_, hndnew, ?_, ?_, ?_⟩
    · simpa using hlen
    · intro j hj
      refine hbound j ?_
      rw [hsplit]
      simp only [List.mem_append, List.mem_cons] at hj ⊢
      tauto
    · have hL : s.running.length = l1.length + l2.length + 1 := by
        rw [hsplit]
        simp only [List.length_append, List.length_cons]
        omega
      simp only [List.length_append]
      omega
    · intro j hjn
      rw [List.getElem?_set]
      by_cases hij : i = j
      · subst hij
        rw [if_pos rfl, if_pos (by omega : i < s.results.length), if_neg hi_not]
      · rw [if_neg hij, hres j hjn]
        by_cases hmem : j ∈ s.queue ++ (l1 ++ l2)
        · have hmem2 : j ∈ s.queue ++ s.running := by
            rw [hsplit]
            simp only [List.mem_append, List.mem_cons] at hmem ⊢
            tauto
          rw [if_pos hmem2, if_pos hmem]
        · have hmem2 : j ∉ s.queue ++ s.running := by
            rw [hsplit]
            simp only [List.mem_append, List.mem_cons] at hmem ⊢
            have hji : j ≠ i := fun h => hij h.symm
            tauto
          rw [if_neg hmem2, if_neg hmem]

/-- The invariant holds in every reachable batch state. -/
theorem batchInv_of_reach (resolve : Nat → DomainCheckResult) (C n : Nat)
    (s : BatchState) (h : BatchReach resolve C n s) : BatchInv resolve C n s := by
  unfold BatchReach at h
  induction h with
  | refl => exact batchInv_init resolve C n
  | tail hab hbc ih => exact batchInv_step resolve C n _ _ hbc ih

/-- In any reachable completed state (nothing queued, nothing running), the
result slots hold exactly the input-indexed results, in input order. -/
theorem batch_final_results (resolve : Nat → DomainCheckResult) (C n : Nat)
    (s : BatchState) (h : BatchReach resolve C n s)
    (hq : s.queue = []) (hr : s.running = []) :
    s.results = (List.range n).map (fun i => some (resolve i)) := by
  obtain ⟨hlen, _, _, _, hres⟩ := batchInv_of_reach resolve C n s h
  apply List.ext_getElem?
  intro j
  by_cases hj : j < n
  · have hmem : j ∉ s.queue ++ s.running := by
      rw [hq, hr]; simp
    rw [hres j hj, if_neg hmem, List.getElem?_map, List.getElem?_range hj]
    rfl
  · rw [List.getElem?_eq_none (by omega : s.results.length ≤ j),
      List.getElem?_eq_none
        (by simp; omega : ((List.range n).map (fun i => some (resolve i))).length ≤ j)]

/-- Mapping over a list is mapping its index range through indexed
access. -/
theorem map_eq_range_map {β : Type} (l : List String) (f : String → β) :
    l.map f = (List.range l.length).map (fun i => f (l.getD i "")) := by
  induction l with
  | nil => rfl
  | cons a t ih =>
    rw [List.map_cons, List.length_cons, List.range_succ_eq_map, List.map_cons, List.map_map]
    congr 1

/-! ## C10: the concurrency bound is never exceeded -/

/-- C10: in every state reachable by the batch scheduler under concurrency
bound `C`, at most `C` lookups are in flight (the `start` rule itself
admits a task only while fewer than `C` are outstanding, and a completing
task frees its slot for the next queued domain). -/
theorem C10_concurrency_bound (resolve : Nat → DomainCheckResult) (C n : Nat)
    (s : BatchState) (h : BatchReach resolve C n s) :
    s.running.length ≤ C :=
  (batchInv_of_reach resolve C n s h).2.2.2.1

/-- Closed instantiation of C10 after one admission step of a
single-domain batch under concurrency bound 1. -/
theorem C10_witness :
    ({ queue := [], running := [0], results := [none] } : BatchState).running.length ≤ 1 :=
  C10_concurrency_bound sampleResolve 1 1 _
    (Relation.ReflTransGen.single
      (BatchStep.start 0 [] (initBatch 1) (by decide) (by decide)))

/-! ## C3: batch results come back complete and in input order -/

/-- C3: for any batch and any concurrency bound between 1 and 10, every
completed scheduler run (empty queue, nothing in flight), regardless of the
order in which the individual lookups finished, fills the result slots with
exactly the value of `checkDomainsParallel`, which has one result per input
domain, in input order (slot `i` holds the resolution of domain `i`); the
run never raises since the per-domain resolver is total. -/
theorem C3_batch_order (env : JsEnv)
    (ro : String → Except String (Option RdapRecord))
    (wo : String → Except String WhoisPayload)
    (domains : List String) (C : Nat) (hC1 : 1 ≤ C) (hC10 : C ≤ 10)
    (s : BatchState)
    (hreach : BatchReach (batchResolve env ro wo domains) C domains.length s)
    (hq : s.queue = []) (hr : s.running = []) :
    s.results = (checkDomainsParallel env ro wo domains C).map some ∧
    (checkDomainsParallel env ro wo domains C).length = domains.length ∧
    (∀ i : Nat, (checkDomainsParallel env ro wo domains C)[i]? =
      (domains[i]?).map (fun d => checkDomain env d (ro d) (wo d))) := by
  refine ⟨?_, by simp [checkDomainsParallel], ?_⟩
  · rw [batch_final_results (batchResolve env ro wo domains) C domains.length s hreach hq hr]
    rw [show (checkDomainsParallel env ro wo domains C).map some =
        domains.map (fun d => some (checkDomain env d (ro d) (wo d))) by
      simp [checkDomainsParallel]]
    rw [map_eq_range_map domains (fun d => some (checkDomain env d (ro d) (wo d)))]
    rfl
  · intro i
    simp [checkDomainsParallel, List.getElem?_map]

/-- Closed instantiation of C3: a complete two-step schedule of a
single-domain batch yields that domain's result in slot 0. -/
theorem C3_witness :
    ({ queue := [], running := []
       results := [some (batchResolve sampleEnv sampleRdapOracle sampleWhoisOracle
         ["a.com"] 0)] } : BatchState).results =
      (checkDomainsParallel sampleEnv sampleRdapOracle sampleWhoisOracle
        ["a.com"] 1).map some :=
  (C3_batch_order sampleEnv sampleRdapOracle sampleWhoisOracle ["a.com"] 1 (by decide)
    (by decide) _
    (Relation.ReflTransGen.tail
      (Relation.ReflTransGen.single
        (BatchStep.start 0 [] (initBatch 1) (by decide) (by decide)))
      (BatchStep.finish [] [] 0
        { queue := [], running := [0], results := [none] } (by decide)))
    rfl rfl).1

/-! ## Counting lemmas for the grouped summaries (C9) -/

/-- Sum of a pointwise addition of two maps. -/
theorem sum_map_add {γ : Type} (l : List γ) (f g : γ → Nat) :
    (l.map (fun x => f x + g x)).sum = (l.map f).sum + (l.map g).sum := by
  induction l with
  | nil => rfl
  | cons a t ih =>
    simp only [List.map_cons, List.sum_cons, ih]
    omega

/-- Sum of 0/1 indicators is the count of hits. -/
theorem sum_map_ite {γ : Type} (l : List γ) (p : γ → Bool) :
    (l.map (fun x => if p x then 1 else 0)).sum = l.countP p := by
  induction l with
  | nil => rfl
  | cons a t ih =>
    rw [List.map_cons, List.sum_cons, ih, List.countP_cons]
    by_cases hp : p a = true <;> simp [hp] <;> omega

/-- When every element matches exactly one key, the per-key filtered
lengths sum to the total length. -/
theorem sum_filter_length {γ α : Type} (keys : List γ) (q : γ → α → Bool) (rs : List α)
    (h : ∀ r ∈ rs, keys.countP (fun k => q k r) = 1) :
    (keys.map (fun k => (rs.filter (fun r => q k r)).length)).sum = rs.length := by
  induction rs with
  | nil => simp
  | cons r rest ih =>
    have h1 : keys.countP (fun k => q k r) = 1 := h r (by simp)
    have h2 : ∀ x ∈ rest, keys.countP (fun k => q k x) = 1 :=
      fun x hx => h x (by simp [hx])
    have hsplit : ∀ k, ((r :: rest).filter (fun x => q k x)).length =
        (if q k r then 1 else 0) + (rest.filter (fun x => q k x)).length := by
      intro k
      rw [List.filter_cons]
      by_cases hk : q k r = true <;> simp [hk] <;> omega
    calc (keys.map (fun k => ((r :: rest).filter (fun x => q k x)).length)).sum
        = (keys.map (fun k =>
            (if q k r then 1 else 0) + (rest.filter (fun x => q k x)).length)).sum := by
          exact congrArg List.sum (List.map_congr_left (fun k _ => hsplit k))
      _ = (keys.map (fun k => if q k r then 1 else 0)).sum +
          (keys.map (fun k => (rest.filter (fun x => q k x)).length)).sum :=
          sum_map_add keys _ _
      _ = keys.countP (fun k => q k r) + rest.length := by rw [ih h2, sum_map_ite]
      _ = (r :: rest).length := by rw [h1, List.length_cons]; omega

/-- Filtering commutes. -/
theorem filter_swap {α : Type} (p q : α → Bool) (l : List α) :
    (l.filter p).filter q = (l.filter q).filter p := by
  rw [List.filter_filter, List.filter_filter]
  exact List.filter_congr (fun a _ => by rw [Bool.and_comm])

/-- When every result belongs to exactly one name group, the groups' counts
of results satisfying `p` sum to the global count of `p`. -/
theorem grouped_count_sum (names : List String) (F : List DomainCheckResult)
    (p : DomainCheckResult → Bool)
    (h : ∀ r ∈ F, names.countP (fun n => jsStartsWith r.domain (n ++ ".")) = 1) :
    (names.map (fun n =>
      ((F.filter (fun r => jsStartsWith r.domain (n ++ "."))).filter p).length)).sum =
    (F.filter p).length := by
  rw [List.map_congr_left (fun n hn => by
    rw [filter_swap (fun r => jsStartsWith r.domain (n ++ ".")) p F])]
  exact sum_filter_length names (fun n r => jsStartsWith r.domain (n ++ ".")) (F.filter p)
    (fun r hr => h r (List.mem_of_mem_filter hr))

/-- The generated domain list has one entry per name/extension pair. -/
theorem crossDomains_length (names extensions : List String) :
    (crossDomains names extensions).length = names.length * extensions.length := by
  unfold crossDomains
  induction names with
  | nil => simp
  | cons a t ih =>
    simp only [List.flatMap_cons, List.length_append, List.length_map, List.length_cons, ih]
    ring

/-- Entry `i * |extensions| + j` of the generated domain list is
`names[i] + "." + extensions[j]`. -/
theorem crossDomains_getElem (names extensions : List String) :
    ∀ i j, i < names.length → j < extensions.length →
      (crossDomains names extensions)[i * extensions.length + j]? =
        some (names.getD i "" ++ "." ++ extensions.getD j "") := by
  induction names with
  | nil =>
    intro i j hi hj
    simp at hi
  | cons a t ih =>
    intro i j hi hj
    have hcd : crossDomains (a :: t) extensions =
        extensions.map (fun ext => a ++ "." ++ ext) ++ crossDomains t extensions := by
      unfold crossDomains
      rw [List.flatMap_cons]
    rw [hcd, List.getElem?_append]
    cases i with
    | zero =>
      rw [if_pos (by simpa using hj)]
      simp only [Nat.zero_mul, Nat.zero_add, List.getElem?_map,
        List.getElem?_eq_getElem hj, Option.map_some, List.getD_cons_zero]
      rw [List.getD_eq_getElem?_getD, List.getElem?_eq_getElem hj]
      rfl
    | succ i2 =>
      have hge : ¬ (i2 + 1) * extensions.length + j < extensions.length := by
        rw [Nat.succ_mul]
        omega
      rw [if_neg (by simpa using hge)]
      have hidx : (i2 + 1) * extensions.length + j - (extensions.map
          (fun ext => a ++ "." ++ ext)).length = i2 * extensions.length + j := by
        simp only [List.length_map]
        rw [Nat.succ_mul]
        omega
      rw [hidx, ih i2 j (by simpa using hi) hj, List.getD_cons_succ]

/-! ## C9: the cross-product tool and its grouped summary -/

/-- C9 counterexample: with names ["a", "a.b"] and extensions ["c"] the
result for "a.b.c" starts with both "a." and "a.b.", so it is counted in
both per-name groups: the sub-summaries' totals sum to 3 while the batch
performed (and the global summary counts) only 2 lookups. -/
theorem C9_counterexample :
    ((["a", "a.b"] : List String) ≠ []) ∧ ((["c"] : List String) ≠ []) ∧
    ((check_names_extensions sampleEnv sampleRdapOracle sampleWhoisOracle
        ["a", "a.b"] ["c"] 4 false).resultsByName.map (fun g => g.2.total)).sum = 3 ∧
    (check_names_extensions sampleEnv sampleRdapOracle sampleWhoisOracle
        ["a", "a.b"] ["c"] 4 false).totalChecks = 2 ∧
    (3 : Nat) ≠ 2 := by
  decide

/-- C9 (amended): the handler performs exactly one lookup per name/extension
pair in cross-product order — entry `i * |extensions| + j` of the generated
batch is `names[i] + "." + extensions[j]` — and, provided each filtered
result's domain starts with `n + "."` for exactly one listed name `n` (which
overlapping or non-normalized names can violate), the per-name sub-summary
counts sum to the corresponding global totals. -/
theorem C9_names_extensions (env : JsEnv)
    (ro : String → Except String (Option RdapRecord))
    (wo : String → Except String WhoisPayload)
    (names extensions : List String) (concurrency : Nat) (inc : Bool)
    (hnames : names ≠ []) (hexts : extensions ≠ [])
    (huniq : ∀ r ∈ (checkDomainsParallel env ro wo (crossDomains names extensions)
        concurrency).map (fun r => filterRegistrationData r inc),
      names.countP (fun n => jsStartsWith r.domain (n ++ ".")) = 1) :
    (crossDomains names extensions).length = names.length * extensions.length ∧
    (∀ i j, i < names.length → j < extensions.length →
      (crossDomains names extensions)[i * extensions.length + j]? =
        some (names.getD i "" ++ "." ++ extensions.getD j "")) ∧
    ((check_names_extensions env ro wo names extensions concurrency inc).resultsByName.map
        (fun g => g.2.total)).sum =
      (check_names_extensions env ro wo names extensions concurrency inc).totalChecks ∧
    ((check_names_extensions env ro wo names extensions concurrency inc).resultsByName.map
        (fun g => g.2.available)).sum =
      (check_names_extensions env ro wo names extensions concurrency inc).availableTotal ∧
    ((check_names_extensions env ro wo names extensions concurrency inc).resultsByName.map
        (fun g => g.2.taken)).sum =
      (check_names_extensions env ro wo names extensions concurrency inc).takenTotal ∧
    ((check_names_extensions env ro wo names extensions concurrency inc).resultsByName.map
        (fun g => g.2.errors)).sum =
      (check_names_extensions env ro wo names extensions concurrency inc).errorsTotal ∧
    ((check_names_extensions env ro wo names extensions concurrency inc).resultsByName.map
        (fun g => g.2.rateLimited)).sum =
      (check_names_extensions env ro wo names extensions concurrency inc).rateLimitedTotal ∧
    ((check_names_extensions env ro wo names extensions concurrency inc).resultsByName.map
        (fun g => g.2.unknown)).sum =
      (check_names_extensions env ro wo names extensions concurrency inc).unknownTotal := by
  refine ⟨crossDomains_length names extensions, crossDomains_getElem names extensions,
    ?_, ?_, ?_, ?_, ?_, ?_⟩
  · simp only [check_names_extensions, nameSummaryOf, List.map_map, Function.comp]
    exact sum_filter_length names (fun n r => jsStartsWith r.domain (n ++ "."))
      ((checkDomainsParallel env ro wo (crossDomains names extensions) concurrency).map
        (fun r => filterRegistrationData r inc)) huniq
  · simp only [check_names_extensions, nameSummaryOf, List.map_map, Function.comp]
    exact grouped_count_sum names
      ((checkDomainsParallel env ro wo (crossDomains names extensions) concurrency).map
        (fun r => filterRegistrationData r inc)) (fun r => r.available) huniq
  · simp only [check_names_extensions, nameSummaryOf, List.map_map, Function.comp]
    exact grouped_count_sum names
      ((checkDomainsParallel env ro wo (crossDomains names extensions) concurrency).map
        (fun r => filterRegistrationData r inc)) (fun r => r.status == DomainStatus.taken) huniq
  · simp only [check_names_extensions, nameSummaryOf, List.map_map, Function.comp]
    exact grouped_count_sum names
      ((checkDomainsParallel env ro wo (crossDomains names extensions) concurrency).map
        (fun r => filterRegistrationData r inc)) (fun r => jsTruthyStr r.error) huniq
  · simp only [check_names_extensions, nameSummaryOf, List.map_map, Function.comp]
    exact grouped_count_sum names
      ((checkDomainsParallel env ro wo (crossDomains names extensions) concurrency).map
        (fun r => filterRegistrationData r inc)) (fun r => r.status == DomainStatus.rate_limited) huniq
  · simp only [check_names_extensions, nameSummaryOf, List.map_map, Function.comp]
    exact grouped_count_sum names
      ((checkDomainsParallel env ro wo (crossDomains names extensions) concurrency).map
        (fun r => filterRegistrationData r inc)) (fun r => r.status == DomainStatus.unknown) huniq

/-- Closed instantiation of C9 (amended) with two disjoint names: the group
totals sum to the global check count. -/
theorem C9_witness :
    ((check_names_extensions sampleEnv sampleRdapOracle sampleWhoisOracle
        ["a", "b"] ["com"] 4 false).resultsByName.map (fun g => g.2.total)).sum =
      (check_names_extensions sampleEnv sampleRdapOracle sampleWhoisOracle
        ["a", "b"] ["com"] 4 false).totalChecks :=
  (C9_names_extensions sampleEnv sampleRdapOracle sampleWhoisOracle ["a", "b"] ["com"]
    4 false (by decide) (by decide) (by decide)).2.2.1

end DomainChecker
